import Mathlib

/-
Verification of the budgetly reconciliation core.

This file is a shallow embedding of the budget/transaction logic of the
repository.  JavaScript numbers are modelled as rationals (Rat); the few
call sites that can see NaN are modelled with Option Rat (none = NaN).
The clock value Date.now() is modelled as an explicit Nat parameter.
localStorage state is passed around explicitly as the transaction list.
-/

/-- Transaction record of the Transactions screens (field for field the
TypeScript type Txn: id, date, amount, merchant?, categoryId, notes?). -/
structure Txn where
  id : String
  date : String
  amount : Rat
  merchant : Option String
  categoryId : String
  notes : Option String
  deriving Repr, DecidableEq

/-- JavaScript Array.prototype.reduce((s, t) => s + t.amount, 0), the summation
shape used by getSpentByCategory (layout file) and confirmMove (budget screen). -/
def sumAmounts (l : List Txn) : Rat :=
  l.foldl (fun s t => s + t.amount) 0

/-- getSpentByCategory of the root layout: filter the month's transactions by
categoryId and reduce the amounts.  The source reads only the amount and
categoryId fields, so it is stated here over the full Txn record. -/
def getSpentByCategory (txns : List Txn) (categoryId : String) : Rat :=
  sumAmounts (txns.filter (fun t => t.categoryId = categoryId))

namespace BudgetTab

/-- Category shape of the web-MVP budget screen and the onboarding screens:
id, name, planned, and the cached spent field. -/
structure Category where
  id : String
  name : String
  planned : Rat
  spent : Rat
  deriving Repr, DecidableEq

/-- Budget aggregate: month key plus the ordered category list. -/
structure Budget where
  month : String
  categories : List Category
  deriving Repr, DecidableEq

/-- reconcileFromStorage of the budget screen: rebuild a record of per-category
sums from the stored transactions (sums[t.categoryId] = (sums[t.categoryId] or 0)
+ amt), then set every category's spent to sums[c.id] or 0.  The JavaScript
record is modelled as a total function with default 0, which absorbs both
occurrences of the "or 0" fallback. -/
def reconcileFromStorage (b : Budget) (txns : List Txn) : Budget :=
  let sums : String → Rat :=
    txns.foldl
      (fun acc t => Function.update acc t.categoryId (acc t.categoryId + t.amount))
      (fun _ => 0)
  { b with categories := b.categories.map (fun c => { c with spent := sums c.id }) }

/-- Result of confirmMove: the updated ledger and budget plus the moved count
and moved sum reported to the user. -/
structure MoveResult where
  txns : List Txn
  budget : Budget
  movedCount : Nat
  movedSum : Rat
  deriving Repr, DecidableEq

/-- confirmMove of the budget screen.  Guard: no-op when either id is empty or
the two ids coincide.  Then moved is the list of transactions whose categoryId
equals moveId; when it is empty the operation only alerts (no-op).  Otherwise
every moved transaction is reassigned to moveTargetId, the source category's
cached spent is clamped at 0 after subtracting the moved sum, and the target
category's spent grows by the moved sum. -/
def confirmMove (moveId moveTargetId : String) (b : Budget) (txns : List Txn) :
    MoveResult :=
  if moveId = "" ∨ moveTargetId = "" ∨ moveId = moveTargetId then
    { txns := txns, budget := b, movedCount := 0, movedSum := 0 }
  else
    let moved := txns.filter (fun t => t.categoryId = moveId)
    if moved.length = 0 then
      { txns := txns, budget := b, movedCount := 0, movedSum := 0 }
    else
      let movedSum := sumAmounts moved
      let updated := txns.map (fun t =>
        if t.categoryId = moveId then { t with categoryId := moveTargetId } else t)
      { txns := updated
        budget := { b with categories := b.categories.map (fun c =>
          if c.id = moveId then { c with spent := max 0 (c.spent - movedSum) }
          else if c.id = moveTargetId then { c with spent := c.spent + movedSum }
          else c) }
        movedCount := moved.length
        movedSum := movedSum }

/-- Failure mode of confirmDelete. -/
inductive DeleteError where
  | CategoryHasSpend
  deriving Repr, DecidableEq

/-- Outcome of confirmDelete: an optional failure plus the (possibly unchanged)
budget and the ledger, which confirmDelete never touches. -/
structure DeleteOutcome where
  error : Option DeleteError
  budget : Budget
  txns : List Txn
  deriving Repr, DecidableEq

/-- confirmDelete of the budget screen: if the (cached, reconciliation-derived)
spent passed by the caller is positive the deletion is refused; otherwise the
category is filtered out of the collection and the ledger is left untouched. -/
def confirmDelete (catId : String) (spent : Rat) (b : Budget) (txns : List Txn) :
    DeleteOutcome :=
  if 0 < spent then
    { error := some DeleteError.CategoryHasSpend, budget := b, txns := txns }
  else
    { error := none
      budget := { b with categories := b.categories.filter (fun c => c.id ≠ catId) }
      txns := txns }

/-- addCategory of the web-MVP budget screen: reject an empty trimmed name or
a NaN or negative parsed planned value (none models NaN), then append a fresh
category.  The fresh id is built from Date.now().toString(36) and a random
component; that whole string is modelled as the explicit idValue argument. -/
def addCategory (name : String) (parsedPlanned : Option Rat)
    (idValue : String) (b : Budget) : Budget :=
  if name.trim = "" then b
  else
    match parsedPlanned with
    | none => b
    | some p =>
      if p < 0 then b
      else
        { b with categories := b.categories ++
            [{ id := idValue, name := name.trim, planned := p, spent := 0 }] }

end BudgetTab

namespace TxnScreen

/-- Construction of the transaction record inside onAdd: id is
String(Date.now()); merchant and notes fall back to undefined when their
trimmed text is empty. -/
def mkTxn (now : Nat) (date : String) (amount : Rat) (merchant : String)
    (catId : String) (notes : String) : Txn :=
  { id := toString now
    date := date
    amount := amount
    merchant := if merchant.trim = "" then none else some merchant.trim
    categoryId := catId
    notes := if notes.trim = "" then none else some notes.trim }

/-- onAdd of the Transactions screen: amt = Number(amount) (none models NaN);
no-op when no category is selected, amt is NaN, or amt is not positive;
otherwise the new transaction is placed at the head and the list is cut to 50
entries with slice(0, 50). -/
def onAdd (catId : String) (amount : Option Rat) (now : Nat)
    (date merchant notes : String) (prev : List Txn) : List Txn :=
  if catId = "" then prev
  else
    match amount with
    | none => prev
    | some amt =>
      if amt ≤ 0 then prev
      else (mkTxn now date amt merchant catId notes :: prev).take 50

/-- performDelete of the Transactions screen: keep every transaction whose id
differs from the deleted transaction's id. -/
def performDelete (txn : Txn) (prev : List Txn) : List Txn :=
  prev.filter (fun t => t.id ≠ txn.id)

/-- onUndo of the Transactions screen: put the last deleted transaction back at
the head; no capacity cut is applied here. -/
def onUndo (lastDeleted : Txn) (prev : List Txn) : List Txn :=
  lastDeleted :: prev

end TxnScreen

/-- A ledger-mutating operation of the kind quantified over by the spend
consistency invariant: ledger add, ledger remove, or a category move. -/
inductive LedgerOp where
  | add (catId : String) (amount : Option Rat) (now : Nat)
        (date merchant notes : String)
  | remove (txn : Txn)
  | move (sourceId targetId : String)

/-- Apply one operation to the combined state (budget, ledger), using the
source operations onAdd, performDelete and confirmMove. -/
def applyOp (st : BudgetTab.Budget × List Txn) : LedgerOp → BudgetTab.Budget × List Txn
  | .add catId amount now date merchant notes =>
      (st.1, TxnScreen.onAdd catId amount now date merchant notes st.2)
  | .remove txn => (st.1, TxnScreen.performDelete txn st.2)
  | .move sourceId targetId =>
      let r := BudgetTab.confirmMove sourceId targetId st.1 st.2
      (r.budget, r.txns)

/-- Apply a sequence of operations from left to right. -/
def applyOps (st : BudgetTab.Budget × List Txn) (ops : List LedgerOp) :
    BudgetTab.Budget × List Txn :=
  ops.foldl applyOp st

namespace Store

/-- Category type of the root layout: the string union "income" | "expense". -/
inductive CatType where
  | income
  | expense
  deriving Repr, DecidableEq

/-- Category of the root layout: id, name, type, planned and an optional group
label (no cached spent field in this variant). -/
structure Category where
  id : String
  name : String
  type : CatType
  planned : Rat
  group : Option String
  deriving Repr, DecidableEq

/-- Budget aggregate of the root layout. -/
structure Budget where
  month : String
  categories : List Category
  deriving Repr, DecidableEq

/-- addCategory of the root layout: append a category whose id is
String(Date.now()), name trimmed, planned 0; the group spread
(group ? { group } : Nothing) drops an absent or empty group. -/
def addCategory (now : Nat) (name : String) (type : CatType)
    (group : Option String) (b : Budget) : Budget :=
  { b with categories := b.categories ++
      [{ id := toString now
         name := name.trim
         type := type
         planned := 0
         group := group.bind (fun g => if g = "" then none else some g) }] }

/-- setPlanned of the root layout: replace the matching category's planned with
the given value, with no validation of that value. -/
def setPlanned (categoryId : String) (planned : Rat) (b : Budget) : Budget :=
  { b with categories := b.categories.map (fun c =>
      if c.id = categoryId then { c with planned := planned } else c) }

/-- Stored transaction shape read back by getTotals: amount and categoryId. -/
structure TxnLite where
  amount : Rat
  categoryId : String
  deriving Repr, DecidableEq

/-- Totals record returned by getTotals. -/
structure Totals where
  incomePlanned : Rat
  incomeReceived : Rat
  expensePlanned : Rat
  expenseSpent : Rat
  leftoverPlanned : Rat
  leftoverActual : Rat
  deriving Repr, DecidableEq

/-- getTotals of the root layout: planned sums per type partition; then one
pass over the stored transactions adding each amount to incomeReceived when
the categoryId belongs to an income category and to expenseSpent otherwise. -/
def getTotals (b : Budget) (txns : List TxnLite) : Totals :=
  let incomePlanned :=
    (b.categories.filter (fun c => c.type = CatType.income)).foldl
      (fun s c => s + c.planned) 0
  let expensePlanned :=
    (b.categories.filter (fun c => c.type = CatType.expense)).foldl
      (fun s c => s + c.planned) 0
  let incomeIds :=
    (b.categories.filter (fun c => c.type = CatType.income)).map (fun c => c.id)
  let acc := txns.foldl
    (fun (p : Rat × Rat) t =>
      if t.categoryId ∈ incomeIds then (p.1 + t.amount, p.2)
      else (p.1, p.2 + t.amount))
    (0, 0)
  { incomePlanned := incomePlanned
    incomeReceived := acc.1
    expensePlanned := expensePlanned
    expenseSpent := acc.2
    leftoverPlanned := incomePlanned - expensePlanned
    leftoverActual := acc.1 - acc.2 }

end Store

namespace Onboarding

/-- JavaScript Math.round: round half toward positive infinity. -/
def jsRound (q : Rat) : Int :=
  Int.floor (q + 1 / 2)

/-- sampleBudget of the onboarding screen: income and fixed costs, remainder
clamped at 0, the 50/30/20 split, and the fixed nine-category list with the
documented percentage sub-splits, each planned value rounded with Math.round
where the source rounds and each spent initialized to 0. -/
def sampleBudget (incomePrimary incomeOther rent mortgage utilities : Rat) :
    BudgetTab.Budget :=
  let income := incomePrimary + incomeOther
  let fixed := rent + mortgage + utilities
  let remainder := max (income - fixed) 0
  let needs := remainder * 0.5
  let wants := remainder * 0.3
  let savings := remainder * 0.2
  { month := "2025-09"
    categories := [
      { id := "c0", name := "Housing", planned := rent + mortgage, spent := 0 },
      { id := "c1", name := "Utilities", planned := utilities, spent := 0 },
      { id := "c2", name := "Groceries",
        planned := ((jsRound (needs * 0.55) : Int) : Rat), spent := 0 },
      { id := "c3", name := "Transport",
        planned := ((jsRound (needs * 0.25) : Int) : Rat), spent := 0 },
      { id := "c4", name := "Health",
        planned := ((jsRound (needs * 0.12) : Int) : Rat), spent := 0 },
      { id := "c5", name := "Insurance",
        planned := ((jsRound (needs * 0.08) : Int) : Rat), spent := 0 },
      { id := "c6", name := "Lifestyle",
        planned := ((jsRound (wants * 0.7) : Int) : Rat), spent := 0 },
      { id := "c7", name := "Personal",
        planned := ((jsRound (wants * 0.3) : Int) : Rat), spent := 0 },
      { id := "c8", name := "Savings/Goals",
        planned := ((jsRound savings : Int) : Rat), spent := 0 } ] }

end Onboarding

/-
Helper lemmas about the summation shapes used by the source.
-/

/-- Folding addition of amounts over a list starting from s equals s plus the
fold started from 0. -/
lemma foldl_amount_shift (l : List Txn) (s : Rat) :
    l.foldl (fun s t => s + t.amount) s = s + l.foldl (fun s t => s + t.amount) 0 := by
  induction l generalizing s with
  | nil => simp
  | cons t ts ih =>
    simp only [List.foldl_cons]
    rw [ih (s + t.amount), ih (0 + t.amount)]
    ring

/-- sumAmounts of the empty list is 0. -/
lemma sumAmounts_nil : sumAmounts [] = 0 := rfl

/-- sumAmounts over a cons adds the head amount. -/
lemma sumAmounts_cons (t : Txn) (l : List Txn) :
    sumAmounts (t :: l) = t.amount + sumAmounts l := by
  simp only [sumAmounts, List.foldl_cons]
  rw [foldl_amount_shift]
  ring

/-- getSpentByCategory of the empty ledger is 0. -/
lemma getSpentByCategory_nil (k : String) : getSpentByCategory [] k = 0 := rfl

/-- getSpentByCategory over a cons whose head matches the category adds the
head amount. -/
lemma getSpentByCategory_cons_self (t : Txn) (l : List Txn) :
    getSpentByCategory (t :: l) t.categoryId =
      t.amount + getSpentByCategory l t.categoryId := by
  simp [getSpentByCategory, List.filter_cons, sumAmounts_cons]

/-- getSpentByCategory over a cons whose head does not match the category skips
the head. -/
lemma getSpentByCategory_cons_ne (t : Txn) (l : List Txn) (k : String)
    (h : t.categoryId ≠ k) :
    getSpentByCategory (t :: l) k = getSpentByCategory l k := by
  simp [getSpentByCategory, List.filter_cons, h]

/-- The per-category sums record built by reconcileFromStorage computes, at
every key, the filtered amount sum of the ledger (plus whatever the starting
accumulator holds at that key). -/
lemma reconcile_sums_spec (txns : List Txn) (acc : String → Rat) (k : String) :
    txns.foldl
        (fun acc t => Function.update acc t.categoryId (acc t.categoryId + t.amount))
        acc k
      = acc k + getSpentByCategory txns k := by
  induction txns generalizing acc with
  | nil => simp [getSpentByCategory_nil]
  | cons t ts ih =>
    simp only [List.foldl_cons]
    rw [ih]
    by_cases h : t.categoryId = k
    · subst h
      rw [getSpentByCategory_cons_self, Function.update_same]
      ring
    · rw [getSpentByCategory_cons_ne _ _ _ h,
        Function.update_noteq (fun hk => h hk.symm)]

/-- C1.  Spend consistency: for any sequence of ledger add, remove, or
moveCategory operations applied to an initial budget and ledger, after
reconcileFromStorage has run every category's cached spent equals the filtered
amount sum (getSpentByCategory) of the resulting ledger at that category's id. -/
theorem spend_consistency_after_reconcile
    (ops : List LedgerOp) (b0 : BudgetTab.Budget) (txns0 : List Txn)
    (c : BudgetTab.Category)
    (hc : c ∈ (BudgetTab.reconcileFromStorage (applyOps (b0, txns0) ops).1
        (applyOps (b0, txns0) ops).2).categories) :
    c.spent = getSpentByCategory (applyOps (b0, txns0) ops).2 c.id := by
  simp only [BudgetTab.reconcileFromStorage, List.mem_map] at hc
  obtain ⟨a, _, rfl⟩ := hc
  show List.foldl _ (fun _ => 0) (applyOps (b0, txns0) ops).2 a.id
      = getSpentByCategory (applyOps (b0, txns0) ops).2 a.id
  rw [reconcile_sums_spec]
  simp

/-- C1 witness: a concrete state.  One category with id a and a ledger holding
a single transaction of amount 5 against it; after reconciliation the category
holds spent 5, which equals the ledger sum at id a. -/
theorem spend_consistency_after_reconcile_witness :
    (⟨"a", "A", 0, 5⟩ : BudgetTab.Category) ∈
      (BudgetTab.reconcileFromStorage
        (applyOps (⟨"2025-09", [⟨"a", "A", 0, 0⟩]⟩,
          [⟨"t1", "2025-09-01", 5, none, "a", none⟩]) []).1
        (applyOps (⟨"2025-09", [⟨"a", "A", 0, 0⟩]⟩,
          [⟨"t1", "2025-09-01", 5, none, "a", none⟩]) []).2).categories
    ∧ (⟨"a", "A", 0, 5⟩ : BudgetTab.Category).spent =
        getSpentByCategory
          (applyOps (⟨"2025-09", [⟨"a", "A", 0, 0⟩]⟩,
            [⟨"t1", "2025-09-01", 5, none, "a", none⟩]) []).2
          (⟨"a", "A", 0, 5⟩ : BudgetTab.Category).id :=
  ⟨by norm_num [applyOps, BudgetTab.reconcileFromStorage, Function.update],
   spend_consistency_after_reconcile _ _ _ _
    (by norm_num [applyOps, BudgetTab.reconcileFromStorage, Function.update])⟩

/-- C10.  Undo ignores the capacity cap: onUndo re-inserts the removed
transaction at the head and the resulting ledger length is exactly the
previous length plus one, for every previous ledger, including one already
holding 50 entries. -/
theorem onUndo_no_cap (t : Txn) (prev : List Txn) :
    (TxnScreen.onUndo t prev).length = prev.length + 1
    ∧ (TxnScreen.onUndo t prev).head? = some t := by
  simp [TxnScreen.onUndo]

/-- C5.  Ledger add contract: onAdd is a no-op when no category is selected,
when the amount is NaN, or when the amount is not positive; on a valid input
the new transaction sits at the head, the tail is the previous ledger cut to
49 entries, and the resulting length is min (previous length + 1) 50, hence
never above 50. -/
theorem onAdd_contract (catId : String) (amount : Option Rat) (now : Nat)
    (date merchant notes : String) (prev : List Txn) :
    (catId = "" ∨ amount = none ∨ (∃ amt, amount = some amt ∧ amt ≤ 0) →
        TxnScreen.onAdd catId amount now date merchant notes prev = prev)
    ∧ (∀ amt, amount = some amt → 0 < amt → catId ≠ "" →
        (TxnScreen.onAdd catId amount now date merchant notes prev).head?
            = some (TxnScreen.mkTxn now date amt merchant catId notes)
        ∧ (TxnScreen.onAdd catId amount now date merchant notes prev).drop 1
            = prev.take 49
        ∧ (TxnScreen.onAdd catId amount now date merchant notes prev).length
            = min (prev.length + 1) 50
        ∧ (TxnScreen.onAdd catId amount now date merchant notes prev).length ≤ 50) := by
  have h50 : (50 : Nat) = 49 + 1 := rfl
  constructor
  · rintro (h | h | ⟨amt, rfl, hle⟩)
    · simp [TxnScreen.onAdd, h]
    · simp [TxnScreen.onAdd, h]
    · simp [TxnScreen.onAdd, hle]
  · rintro amt rfl hpos hcat
    have hform : TxnScreen.onAdd catId (some amt) now date merchant notes prev
        = TxnScreen.mkTxn now date amt merchant catId notes :: prev.take 49 := by
      simp only [TxnScreen.onAdd, if_neg hcat, if_neg (not_le.mpr hpos)]
      rw [h50, List.take_succ_cons]
    refine ⟨?_, ?_, ?_, ?_⟩
    · rw [hform]; rfl
    · rw [hform]; rfl
    · rw [hform]
      simp only [List.length_cons, List.length_take]
      omega
    · rw [hform]
      simp only [List.length_cons, List.length_take]
      omega

/-- C5 witness: a valid add (category a, amount 1) onto the empty ledger
places the freshly built transaction at the head. -/
theorem onAdd_contract_witness :
    (TxnScreen.onAdd "a" (some 1) 7 "2025-09-01" "" "" []).head?
      = some (TxnScreen.mkTxn 7 "2025-09-01" 1 "" "a" "") :=
  ((onAdd_contract "a" (some 1) 7 "2025-09-01" "" "" []).2 1 rfl
    (by norm_num) (by simp)).1

/-- C6.  Undo restores exactly: starting from any ledger whose entries all
have ids different from the id the new transaction will get, a valid add
followed by performDelete of that transaction followed by onUndo yields a
ledger equal (entry for entry, hence as a set of transactions) to the ledger
immediately after the add. -/
theorem undo_restores_exactly (catId : String) (amt : Rat) (now : Nat)
    (date merchant notes : String) (prev : List Txn)
    (hcat : catId ≠ "") (hpos : 0 < amt)
    (hfresh : ∀ u ∈ prev, u.id ≠ (TxnScreen.mkTxn now date amt merchant catId notes).id) :
    TxnScreen.onUndo (TxnScreen.mkTxn now date amt merchant catId notes)
      (TxnScreen.performDelete (TxnScreen.mkTxn now date amt merchant catId notes)
        (TxnScreen.onAdd catId (some amt) now date merchant notes prev))
      = TxnScreen.onAdd catId (some amt) now date merchant notes prev := by
  have h50 : (50 : Nat) = 49 + 1 := rfl
  have hform : TxnScreen.onAdd catId (some amt) now date merchant notes prev
      = TxnScreen.mkTxn now date amt merchant catId notes :: prev.take 49 := by
    simp only [TxnScreen.onAdd, if_neg hcat, if_neg (not_le.mpr hpos)]
    rw [h50, List.take_succ_cons]
  rw [hform]
  have hdel : TxnScreen.performDelete (TxnScreen.mkTxn now date amt merchant catId notes)
      (TxnScreen.mkTxn now date amt merchant catId notes :: prev.take 49)
      = prev.take 49 := by
    simp only [TxnScreen.performDelete, List.filter_cons]
    rw [if_neg (by simp)]
    rw [List.filter_eq_self.mpr]
    intro u hu
    simpa using hfresh u (List.take_subset 49 prev hu)
  rw [hdel]
  rfl

/-- C6 witness: a concrete add of amount 2 against category a on a one-entry
ledger with a different id; remove then undo restores the post-add ledger. -/
theorem undo_restores_exactly_witness :
    TxnScreen.onUndo (TxnScreen.mkTxn 9 "2025-09-02" 2 "" "a" "")
      (TxnScreen.performDelete (TxnScreen.mkTxn 9 "2025-09-02" 2 "" "a" "")
        (TxnScreen.onAdd "a" (some 2) 9 "2025-09-02" "" ""
          [⟨"t1", "2025-09-01", 5, none, "a", none⟩]))
      = TxnScreen.onAdd "a" (some 2) 9 "2025-09-02" "" ""
          [⟨"t1", "2025-09-01", 5, none, "a", none⟩] :=
  undo_restores_exactly "a" 2 9 "2025-09-02" "" ""
    [⟨"t1", "2025-09-01", 5, none, "a", none⟩]
    (by simp) (by norm_num)
    (by intro u hu; simp only [List.mem_singleton] at hu; subst hu; decide)

/-- C9.  Allocator determinism: on the inputs primaryIncome 5000, otherIncome
0, rent 1500, mortgage 0, utilities 200, sampleBudget produces exactly the
nine categories in the fixed order with planned values 1500, 200, 908, 413,
198, 132, 693, 297, 660 and spent 0 everywhere. -/
theorem sampleBudget_deterministic :
    Onboarding.sampleBudget 5000 0 1500 0 200 =
      { month := "2025-09"
        categories := [
          ⟨"c0", "Housing", 1500, 0⟩, ⟨"c1", "Utilities", 200, 0⟩,
          ⟨"c2", "Groceries", 908, 0⟩, ⟨"c3", "Transport", 413, 0⟩,
          ⟨"c4", "Health", 198, 0⟩, ⟨"c5", "Insurance", 132, 0⟩,
          ⟨"c6", "Lifestyle", 693, 0⟩, ⟨"c7", "Personal", 297, 0⟩,
          ⟨"c8", "Savings/Goals", 660, 0⟩] } := by
  simp only [Onboarding.sampleBudget, Onboarding.jsRound]
  norm_num

/-- C4.  Delete guard: with a non-negative derived spent (amounts entering the
ledger are positive, so the reconciled spend is never negative), confirmDelete
refuses with CategoryHasSpend and changes nothing whenever the spent is
nonzero; with spent 0 it succeeds, the deleted id no longer appears among the
categories, the survivors are exactly the previous categories with another id,
and the ledger is untouched in both cases. -/
theorem confirmDelete_guard (catId : String) (spent : Rat)
    (b : BudgetTab.Budget) (txns : List Txn) (hnn : 0 ≤ spent) :
    (spent ≠ 0 →
        (BudgetTab.confirmDelete catId spent b txns).error
            = some BudgetTab.DeleteError.CategoryHasSpend
        ∧ (BudgetTab.confirmDelete catId spent b txns).budget = b
        ∧ (BudgetTab.confirmDelete catId spent b txns).txns = txns)
    ∧ (spent = 0 →
        (BudgetTab.confirmDelete catId spent b txns).error = none
        ∧ (∀ c ∈ (BudgetTab.confirmDelete catId spent b txns).budget.categories,
            c.id ≠ catId)
        ∧ (BudgetTab.confirmDelete catId spent b txns).budget.categories
            = b.categories.filter (fun c => c.id ≠ catId)
        ∧ (BudgetTab.confirmDelete catId spent b txns).budget.month = b.month
        ∧ (BudgetTab.confirmDelete catId spent b txns).txns = txns) := by
  constructor
  · intro hne
    have hpos : 0 < spent := lt_of_le_of_ne hnn (Ne.symm hne)
    simp [BudgetTab.confirmDelete, hpos]
  · intro h0
    subst h0
    have hguard : ¬ ((0 : Rat) < 0) := lt_irrefl 0
    refine ⟨?_, ?_, ?_, ?_, ?_⟩
    · simp [BudgetTab.confirmDelete, hguard]
    · intro c hc
      simp only [BudgetTab.confirmDelete, if_neg hguard] at hc
      simpa using List.of_mem_filter hc
    · simp [BudgetTab.confirmDelete, hguard]
    · simp [BudgetTab.confirmDelete, hguard]
    · simp [BudgetTab.confirmDelete, hguard]

/-- C4 witness: spend 37 blocks deletion with CategoryHasSpend; spend 0 lets
the category with id x disappear from the collection. -/
theorem confirmDelete_guard_witness :
    (BudgetTab.confirmDelete "x" 37 ⟨"2025-09", [⟨"x", "X", 0, 37⟩]⟩ []).error
        = some BudgetTab.DeleteError.CategoryHasSpend
    ∧ (∀ c ∈ (BudgetTab.confirmDelete "x" 0
          ⟨"2025-09", [⟨"x", "X", 0, 0⟩]⟩ []).budget.categories, c.id ≠ "x") :=
  ⟨((confirmDelete_guard "x" 37 ⟨"2025-09", [⟨"x", "X", 0, 37⟩]⟩ []
      (by norm_num)).1 (by norm_num)).1,
   ((confirmDelete_guard "x" 0 ⟨"2025-09", [⟨"x", "X", 0, 0⟩]⟩ []
      (le_refl 0)).2 rfl).2.1⟩

/-- confirmMove with an empty or equal id pair is a no-op returning zero
counts. -/
lemma confirmMove_noop_guard (s t : String) (b : BudgetTab.Budget)
    (txns : List Txn) (h : s = "" ∨ t = "" ∨ s = t) :
    BudgetTab.confirmMove s t b txns = ⟨txns, b, 0, 0⟩ := by
  simp only [BudgetTab.confirmMove, if_pos h]

/-- confirmMove with no matching transaction alerts and is a no-op returning
zero counts. -/
lemma confirmMove_noop_empty (s t : String) (b : BudgetTab.Budget)
    (txns : List Txn) (hg : ¬ (s = "" ∨ t = "" ∨ s = t))
    (hm : (txns.filter (fun u => u.categoryId = s)).length = 0) :
    BudgetTab.confirmMove s t b txns = ⟨txns, b, 0, 0⟩ := by
  simp only [BudgetTab.confirmMove, if_neg hg, if_pos hm]

/-- confirmMove in the successful branch: reassign the matching transactions,
clamp the source spent, raise the target spent, and report count and sum. -/
lemma confirmMove_move_eq (s t : String) (b : BudgetTab.Budget)
    (txns : List Txn) (hg : ¬ (s = "" ∨ t = "" ∨ s = t))
    (hm : ¬ ((txns.filter (fun u => u.categoryId = s)).length = 0)) :
    BudgetTab.confirmMove s t b txns =
      { txns := txns.map (fun u =>
          if u.categoryId = s then { u with categoryId := t } else u)
        budget := { b with categories := b.categories.map (fun c =>
          if c.id = s then
            { c with spent := max 0 (c.spent
                - sumAmounts (txns.filter (fun u => u.categoryId = s))) }
          else if c.id = t then
            { c with spent := c.spent
                + sumAmounts (txns.filter (fun u => u.categoryId = s)) }
          else c) }
        movedCount := (txns.filter (fun u => u.categoryId = s)).length
        movedSum := sumAmounts (txns.filter (fun u => u.categoryId = s)) } := by
  simp only [BudgetTab.confirmMove, if_neg hg, if_neg hm]

/-- C2.  Move conservation: for two present categories with distinct nonempty
ids and non-negative cached spends, confirmMove reports the count and amount
sum of the source's transactions, keeps the ledger length, changes only the
categoryId field of the moved transactions (source id becomes target id), sets
the source spent to max 0 (previous minus movedSum), the target spent to
previous plus movedSum, leaves every other category and the month untouched,
and is a no-op with zero counts whenever an id is empty or the ids match. -/
theorem confirmMove_conservation
    (b : BudgetTab.Budget) (txns : List Txn) (A B : BudgetTab.Category)
    (_hA : A ∈ b.categories) (_hB : B ∈ b.categories)
    (hAid : A.id ≠ "") (hBid : B.id ≠ "") (hne : A.id ≠ B.id)
    (hnn : ∀ c ∈ b.categories, 0 ≤ c.spent) :
    (BudgetTab.confirmMove A.id B.id b txns).movedCount
        = (txns.filter (fun u => u.categoryId = A.id)).length
    ∧ (BudgetTab.confirmMove A.id B.id b txns).movedSum
        = sumAmounts (txns.filter (fun u => u.categoryId = A.id))
    ∧ (BudgetTab.confirmMove A.id B.id b txns).txns.length = txns.length
    ∧ (∀ i, (h1 : i < txns.length) →
        (h2 : i < (BudgetTab.confirmMove A.id B.id b txns).txns.length) →
        ((BudgetTab.confirmMove A.id B.id b txns).txns[i].id = txns[i].id
         ∧ (BudgetTab.confirmMove A.id B.id b txns).txns[i].amount = txns[i].amount
         ∧ (BudgetTab.confirmMove A.id B.id b txns).txns[i].date = txns[i].date
         ∧ (BudgetTab.confirmMove A.id B.id b txns).txns[i].merchant = txns[i].merchant
         ∧ (BudgetTab.confirmMove A.id B.id b txns).txns[i].notes = txns[i].notes
         ∧ (BudgetTab.confirmMove A.id B.id b txns).txns[i].categoryId
             = (if txns[i].categoryId = A.id then B.id else txns[i].categoryId)))
    ∧ (BudgetTab.confirmMove A.id B.id b txns).budget.month = b.month
    ∧ (BudgetTab.confirmMove A.id B.id b txns).budget.categories.length
        = b.categories.length
    ∧ (∀ i, (h1 : i < b.categories.length) →
        (h2 : i < (BudgetTab.confirmMove A.id B.id b txns).budget.categories.length) →
        (BudgetTab.confirmMove A.id B.id b txns).budget.categories[i]
          = (if (b.categories[i]).id = A.id then
               { b.categories[i] with spent := max 0 ((b.categories[i]).spent
                   - (BudgetTab.confirmMove A.id B.id b txns).movedSum) }
             else if (b.categories[i]).id = B.id then
               { b.categories[i] with spent := (b.categories[i]).spent
                   + (BudgetTab.confirmMove A.id B.id b txns).movedSum }
             else b.categories[i]))
    ∧ (∀ s t : String, (s = "" ∨ t = "" ∨ s = t) →
        BudgetTab.confirmMove s t b txns = ⟨txns, b, 0, 0⟩) := by
  have hg : ¬ (A.id = "" ∨ B.id = "" ∨ A.id = B.id) := by
    rintro (h | h | h)
    exacts [hAid h, hBid h, hne h]
  by_cases hm : (txns.filter (fun u => u.categoryId = A.id)).length = 0
  · have hnil : txns.filter (fun u => u.categoryId = A.id) = [] :=
      List.length_eq_zero.mp hm
    rw [confirmMove_noop_empty A.id B.id b txns hg hm]
    refine ⟨hm.symm, by rw [hnil]; rfl, rfl, ?_, rfl, rfl, ?_,
      fun s t h => confirmMove_noop_guard s t b txns h⟩
    · intro i h1 h2
      refine ⟨rfl, rfl, rfl, rfl, rfl, ?_⟩
      have hni : ¬ (txns[i].categoryId = A.id) := by
        have := List.filter_eq_nil_iff.mp hnil (txns[i]) (List.getElem_mem h1)
        simpa using this
      rw [if_neg hni]
    · intro i h1 h2
      have hcnn := hnn (b.categories[i]) (List.getElem_mem h1)
      dsimp only
      by_cases hA2 : (b.categories[i]).id = A.id
      · rw [if_pos hA2, sub_zero, max_eq_right hcnn]
      · rw [if_neg hA2]
        by_cases hB2 : (b.categories[i]).id = B.id
        · rw [if_pos hB2, add_zero]
        · rw [if_neg hB2]
  · rw [confirmMove_move_eq A.id B.id b txns hg hm]
    refine ⟨rfl, rfl, by simp, ?_, rfl, by simp, ?_,
      fun s t h => confirmMove_noop_guard s t b txns h⟩
    · intro i h1 h2
      by_cases hu : txns[i].categoryId = A.id <;>
        simp [List.getElem_map, hu]
    · intro i h1 h2
      simp only [List.getElem_map]

/-- C2 witness: category a with spent 100 backed by three transactions of
amounts 50, 30, 20, and category b with spent 20; the move reports count 3 and
sum 100. -/
theorem confirmMove_conservation_witness :
    (BudgetTab.confirmMove "a" "b"
        ⟨"2025-09", [⟨"a", "A", 0, 100⟩, ⟨"b", "B", 0, 20⟩]⟩
        [⟨"t1", "2025-09-01", 50, none, "a", none⟩,
         ⟨"t2", "2025-09-02", 30, none, "a", none⟩,
         ⟨"t3", "2025-09-03", 20, none, "a", none⟩]).movedCount = 3
    ∧ (BudgetTab.confirmMove "a" "b"
        ⟨"2025-09", [⟨"a", "A", 0, 100⟩, ⟨"b", "B", 0, 20⟩]⟩
        [⟨"t1", "2025-09-01", 50, none, "a", none⟩,
         ⟨"t2", "2025-09-02", 30, none, "a", none⟩,
         ⟨"t3", "2025-09-03", 20, none, "a", none⟩]).movedSum = 100 := by
  have h := confirmMove_conservation
      ⟨"2025-09", [⟨"a", "A", 0, 100⟩, ⟨"b", "B", 0, 20⟩]⟩
      [⟨"t1", "2025-09-01", 50, none, "a", none⟩,
       ⟨"t2", "2025-09-02", 30, none, "a", none⟩,
       ⟨"t3", "2025-09-03", 20, none, "a", none⟩]
      ⟨"a", "A", 0, 100⟩ ⟨"b", "B", 0, 20⟩
      (List.Mem.head _) (List.Mem.tail _ (List.Mem.head _))
      (by decide) (by decide) (by decide)
      (by intro c hc; simp at hc; rcases hc with rfl | rfl <;> norm_num)
  exact ⟨h.1.trans (by norm_num), h.2.1.trans (by norm_num [sumAmounts])⟩

/-- C3 counterexample: a budget with income category i and expense category e,
and one ledger transaction of amount 7 whose categoryId ghost matches no
category.  The dangling transaction is counted in expenseSpent (7 instead of
0), so it is not excluded from the expense partition. -/
theorem getTotals_dangling_counterexample :
    (∀ c ∈ (Store.Budget.mk "2025-09"
        [⟨"i", "Paycheck", Store.CatType.income, 0, none⟩,
         ⟨"e", "Food", Store.CatType.expense, 0, none⟩]).categories,
      c.id ≠ "ghost")
    ∧ (Store.getTotals (Store.Budget.mk "2025-09"
        [⟨"i", "Paycheck", Store.CatType.income, 0, none⟩,
         ⟨"e", "Food", Store.CatType.expense, 0, none⟩])
        [⟨7, "ghost"⟩]).expenseSpent = 7
    ∧ (Store.getTotals (Store.Budget.mk "2025-09"
        [⟨"i", "Paycheck", Store.CatType.income, 0, none⟩,
         ⟨"e", "Food", Store.CatType.expense, 0, none⟩])
        []).expenseSpent = 0 := by
  refine ⟨by decide, ?_, ?_⟩
  · norm_num [Store.getTotals]
    rw [if_neg (by decide)]
  · norm_num [Store.getTotals]

/-- The running pair accumulated by getTotals, started at any point, equals
the pair started at zero shifted by the starting point. -/
lemma foldl_totals_shift (incomeIds : List String) (txns : List Store.TxnLite)
    (a c : Rat) :
    txns.foldl (fun (p : Rat × Rat) t =>
        if t.categoryId ∈ incomeIds then (p.1 + t.amount, p.2)
        else (p.1, p.2 + t.amount)) (a, c)
      = (a + (txns.foldl (fun (p : Rat × Rat) t =>
            if t.categoryId ∈ incomeIds then (p.1 + t.amount, p.2)
            else (p.1, p.2 + t.amount)) (0, 0)).1,
         c + (txns.foldl (fun (p : Rat × Rat) t =>
            if t.categoryId ∈ incomeIds then (p.1 + t.amount, p.2)
            else (p.1, p.2 + t.amount)) (0, 0)).2) := by
  induction txns generalizing a c with
  | nil => simp
  | cons u us ih =>
    simp only [List.foldl_cons]
    by_cases h : u.categoryId ∈ incomeIds
    · simp only [if_pos h]
      rw [ih (a + u.amount) c, ih (0 + u.amount) 0]
      simp only [Prod.mk.injEq]
      constructor <;> ring
    · simp only [if_neg h]
      rw [ih a (c + u.amount), ih 0 (0 + u.amount)]
      simp only [Prod.mk.injEq]
      constructor <;> ring

/-- C3 amended.  A transaction whose categoryId matches no category at all is
excluded from incomeReceived but included in expenseSpent: prepending such a
transaction leaves incomeReceived unchanged and raises expenseSpent by its
amount. -/
theorem getTotals_dangling_to_expense
    (b : Store.Budget) (txns : List Store.TxnLite) (t : Store.TxnLite)
    (hd : ∀ c ∈ b.categories, c.id ≠ t.categoryId) :
    (Store.getTotals b (t :: txns)).incomeReceived
        = (Store.getTotals b txns).incomeReceived
    ∧ (Store.getTotals b (t :: txns)).expenseSpent
        = t.amount + (Store.getTotals b txns).expenseSpent := by
  have hni : t.categoryId ∉
      (b.categories.filter (fun c => c.type = Store.CatType.income)).map
        (fun c => c.id) := by
    intro hmem
    obtain ⟨c, hc, hcid⟩ := List.mem_map.mp hmem
    exact hd c (List.mem_of_mem_filter hc) hcid
  simp only [Store.getTotals, List.foldl_cons]
  rw [if_neg hni, foldl_totals_shift]
  constructor <;> simp

/-- C3 amended witness: against the income/expense budget, the dangling
transaction of amount 7 contributes 7 to expenseSpent and nothing to
incomeReceived. -/
theorem getTotals_dangling_to_expense_witness :
    (Store.getTotals (Store.Budget.mk "2025-09"
        [⟨"i", "Paycheck", Store.CatType.income, 0, none⟩,
         ⟨"e", "Food", Store.CatType.expense, 0, none⟩])
        [⟨7, "ghost"⟩]).incomeReceived
      = (Store.getTotals (Store.Budget.mk "2025-09"
          [⟨"i", "Paycheck", Store.CatType.income, 0, none⟩,
           ⟨"e", "Food", Store.CatType.expense, 0, none⟩]) []).incomeReceived
    ∧ (Store.getTotals (Store.Budget.mk "2025-09"
        [⟨"i", "Paycheck", Store.CatType.income, 0, none⟩,
         ⟨"e", "Food", Store.CatType.expense, 0, none⟩])
        [⟨7, "ghost"⟩]).expenseSpent
      = 7 + (Store.getTotals (Store.Budget.mk "2025-09"
          [⟨"i", "Paycheck", Store.CatType.income, 0, none⟩,
           ⟨"e", "Food", Store.CatType.expense, 0, none⟩]) []).expenseSpent :=
  getTotals_dangling_to_expense
    (Store.Budget.mk "2025-09"
      [⟨"i", "Paycheck", Store.CatType.income, 0, none⟩,
       ⟨"e", "Food", Store.CatType.expense, 0, none⟩])
    [] ⟨7, "ghost"⟩ (by decide)

/-- C7 counterexample: two addCategory calls inside the same millisecond (the
clock reads 5 both times) produce two categories with the identical id 5, so
the ids in the collection are not pairwise distinct. -/
theorem addCategory_id_collision :
    ¬ (((Store.addCategory 5 "B" Store.CatType.expense none
          (Store.addCategory 5 "A" Store.CatType.expense none
            (Store.Budget.mk "2025-09" []))).categories.map
        (fun c => c.id)).Nodup) := by
  decide

/-- C7 amended.  addCategory builds its id as the decimal string of the
current clock value; when that string differs from every existing id and the
existing ids are pairwise distinct, the collection's ids stay pairwise
distinct after the call.  Distinctness therefore holds whenever consecutive
calls observe different clock values, but not when two calls share one. -/
theorem addCategory_id_fresh (now : Nat) (name : String)
    (type : Store.CatType) (group : Option String) (b : Store.Budget)
    (hfresh : toString now ∉ b.categories.map (fun c => c.id))
    (hnodup : (b.categories.map (fun c => c.id)).Nodup) :
    (((Store.addCategory now name type group b).categories.map
        (fun c => c.id)).Nodup) := by
  simp only [Store.addCategory, List.map_append]
  rw [List.nodup_append]
  refine ⟨hnodup, by simp, ?_⟩
  intro x hx hy
  simp only [List.map_cons, List.map_nil, List.mem_singleton] at hy
  subst hy
  exact hfresh hx

/-- C7 amended witness: adding a category at clock 5 to a budget whose only
category has id 1 keeps the ids pairwise distinct. -/
theorem addCategory_id_fresh_witness :
    (((Store.addCategory 5 "Food" Store.CatType.expense none
        (Store.Budget.mk "2025-09"
          [⟨"1", "Old", Store.CatType.expense, 0, none⟩])).categories.map
      (fun c => c.id)).Nodup) :=
  addCategory_id_fresh 5 "Food" Store.CatType.expense none
    (Store.Budget.mk "2025-09" [⟨"1", "Old", Store.CatType.expense, 0, none⟩])
    (by decide) (by decide)

/-- C8 counterexample: setPlanned with the negative value -5 on a category
whose planned is 10 stores -5 instead of leaving the state unchanged, so the
operation is not a no-op on a negative value. -/
theorem setPlanned_negative_stored :
    (Store.setPlanned "c0" (-5)
        (Store.Budget.mk "2025-09"
          [⟨"c0", "Food", Store.CatType.expense, 10, none⟩])).categories.map
        (fun c => c.planned) = [(-5 : Rat)]
    ∧ ¬ (Store.setPlanned "c0" (-5)
        (Store.Budget.mk "2025-09"
          [⟨"c0", "Food", Store.CatType.expense, 10, none⟩])
      = Store.Budget.mk "2025-09"
          [⟨"c0", "Food", Store.CatType.expense, 10, none⟩]) := by
  constructor
  · simp [Store.setPlanned]
  · intro h
    have h2 := congrArg (fun b => b.categories.map (fun c => c.planned)) h
    simp only [Store.setPlanned] at h2
    norm_num at h2

/-- C8 amended.  setPlanned performs no validation: it replaces the matching
category's planned with the given value unconditionally, negative values
included, while every other field, every other category, the order, the
length, and the month are unchanged; rejecting invalid input is left to the
callers. -/
theorem setPlanned_unconditional (categoryId : String) (v : Rat)
    (b : Store.Budget) (i : Nat) (h1 : i < b.categories.length)
    (h2 : i < (Store.setPlanned categoryId v b).categories.length) :
    (Store.setPlanned categoryId v b).month = b.month
    ∧ (Store.setPlanned categoryId v b).categories.length = b.categories.length
    ∧ (Store.setPlanned categoryId v b).categories[i].id = b.categories[i].id
    ∧ (Store.setPlanned categoryId v b).categories[i].name = b.categories[i].name
    ∧ (Store.setPlanned categoryId v b).categories[i].type = b.categories[i].type
    ∧ (Store.setPlanned categoryId v b).categories[i].group = b.categories[i].group
    ∧ (Store.setPlanned categoryId v b).categories[i].planned
        = (if b.categories[i].id = categoryId then v
           else b.categories[i].planned) := by
  refine ⟨rfl, by simp [Store.setPlanned], ?_, ?_, ?_, ?_, ?_⟩
  all_goals
    simp only [Store.setPlanned, List.getElem_map]
    by_cases h : b.categories[i].id = categoryId <;> simp [h]

/-- C8 amended witness: setPlanned 25 on the category with id c0 replaces its
planned value with 25. -/
theorem setPlanned_unconditional_witness :
    ((Store.setPlanned "c0" 25
        (Store.Budget.mk "2025-09"
          [⟨"c0", "Food", Store.CatType.expense, 10, none⟩])).categories.get
      ⟨0, by norm_num [Store.setPlanned]⟩).planned = 25 := by
  have h := (setPlanned_unconditional "c0" 25
      (Store.Budget.mk "2025-09"
        [⟨"c0", "Food", Store.CatType.expense, 10, none⟩])
      0 (by norm_num) (by norm_num [Store.setPlanned])).2.2.2.2.2.2
  exact h.trans (by simp)
